import Mathlib

/-!
Verification development for the EduTube lesson-planning assistant.

The repository is a TypeScript application; the core under study is
  * the plain-text video-list response parsing (`parseVideoResponse`),
  * the JSON analysis-response shaping inside `analyzeVideoAndSuggest`,
  * the lesson-plan fallback inside `generateLessonPlan`,
  * the step-flow state machine implemented by the React handlers in
    `App.tsx` (`handleTopicSubmit`, `handleVideoSelect`,
    `handleAssessmentSelect`, `resetApp`, `goBack`).

Every definition below is a direct shallow embedding of the corresponding
TypeScript code.  JavaScript strings are modelled by Lean `String`
(processed as `List Char`), JavaScript `undefined`-able record fields by
`Option`, and JavaScript truthiness of a string `s` by `s ≠ ""`.
-/

namespace EduTube

/-! ## JavaScript string primitives

Small models of the JavaScript string operations used by the source:
`trim`, `toLowerCase`, `startsWith`, `includes`, `split('\n')`, `.length`,
and `replace(/^(label1|label2)/, '')` for the fixed label alternations.
-/

/-- JavaScript `String.prototype.trim`: drop whitespace at both ends. -/
def jsTrim (s : String) : String :=
  String.mk (((s.toList.dropWhile Char.isWhitespace).reverse.dropWhile
    Char.isWhitespace).reverse)

/-- ASCII lower-casing of one character (as `toLowerCase` acts on the
ASCII marker words appearing in the parsed text). -/
def jsLowerChar (c : Char) : Char :=
  if 'A' ≤ c ∧ c ≤ 'Z' then Char.ofNat (c.toNat + 32) else c

/-- JavaScript `String.prototype.toLowerCase` (ASCII range). -/
def jsLower (s : String) : String :=
  String.mk (s.toList.map jsLowerChar)

/-- JavaScript `String.prototype.startsWith`. -/
def jsStartsWith (s p : String) : Bool :=
  p.toList.isPrefixOf s.toList

/-- Does `pat` occur as a contiguous subsequence of `l`? -/
def listContainsSeq (pat : List Char) : List Char → Bool
  | [] => pat.isPrefixOf []
  | c :: rest => pat.isPrefixOf (c :: rest) || listContainsSeq pat rest

/-- JavaScript `String.prototype.includes`. -/
def jsIncludes (s p : String) : Bool :=
  listContainsSeq p.toList s.toList

/-- Split a character list at newline characters (auxiliary). -/
def splitNlAux (acc : List Char) : List Char → List (List Char)
  | [] => [acc.reverse]
  | c :: rest =>
    if c = '\n' then acc.reverse :: splitNlAux [] rest
    else splitNlAux (c :: acc) rest

/-- JavaScript `text.split('\n')`. -/
def jsSplitNl (s : String) : List String :=
  (splitNlAux [] s.toList).map String.mk

/-- JavaScript string `.length` (code units; all characters involved are
in the basic plane, where code units and characters agree). -/
def jsLen (s : String) : Nat := s.toList.length

/-- `cleanLine.replace(/^(l1|l2|...)/, '')`: strip the first label of the
alternation that is a leading label of `s`; the call sites guarantee one
matches. -/
def stripLabels : List String → String → String
  | [], s => s
  | l :: ls, s =>
    if jsStartsWith s l then String.mk (s.toList.drop l.toList.length)
    else stripLabels ls s

/-! ## Data model (`types.ts`)

`VideoRecommendation` declares `channel`/`description` as `string`, but
the parser builds records by spreading a `Partial<VideoRecommendation>`,
so at runtime those fields can be absent (`undefined`); the embedding
therefore gives them type `Option String`.  `title` and `url` are
guaranteed present (and non-empty) by the push guard. -/

structure VideoRec where
  id : Nat
  title : String
  channel : Option String
  url : String
  description : Option String
  deriving DecidableEq, Repr

/-- The `Partial<VideoRecommendation>` accumulator (`currentVideo`). -/
structure PartialVideo where
  title : Option String := none
  channel : Option String := none
  url : Option String := none
  description : Option String := none
  deriving DecidableEq, Repr

/-- The loop state of `parseVideoResponse`: the emitted list, the
current accumulator and the running marker counter. -/
structure ParseState where
  videos : List VideoRec
  cur : PartialVideo
  counter : Nat
  deriving DecidableEq, Repr

/-! ## `parseVideoResponse` (services/geminiService.ts) -/

/-- The marker-line test:
`cleanLine.toLowerCase().startsWith('video') &&
 (cleanLine.includes(counter.toString()) || cleanLine.length < 10)`. -/
def isMarkerLine (clean : String) (counter : Nat) : Bool :=
  jsStartsWith (jsLower clean) "video" &&
    (jsIncludes clean (Nat.repr counter) || jsLen clean < 10)

/-- JavaScript truthiness of `currentVideo.title && currentVideo.url`:
both fields present and non-empty. -/
def completePartial (cur : PartialVideo) : Bool :=
  match cur.title, cur.url with
  | some t, some u => decide (t ≠ "" ∧ u ≠ "")
  | _, _ => false

/-- The flush step `if (currentVideo.title && currentVideo.url) { push;
currentVideo = {} }`: emits `{...currentVideo, id: counter - 1}` and
clears the accumulator only when both title and url are truthy;
otherwise both the list and the accumulator are left as they are. -/
def flushCur (videos : List VideoRec) (cur : PartialVideo) (counter : Nat) :
    List VideoRec × PartialVideo :=
  match cur.title, cur.url with
  | some t, some u =>
    if t ≠ "" ∧ u ≠ "" then
      (videos ++ [⟨counter - 1, t, cur.channel, u, cur.description⟩],
       ({} : PartialVideo))
    else (videos, cur)
  | _, _ => (videos, cur)

/-- One iteration of the `for (const line of lines)` loop. -/
def processLine (st : ParseState) (line : String) : ParseState :=
  let clean := jsTrim line
  if isMarkerLine clean st.counter then
    let p := flushCur st.videos st.cur st.counter
    ⟨p.1, p.2, st.counter + 1⟩
  else if jsStartsWith clean "Title:" || jsStartsWith clean "제목:" then
    { st with cur := { st.cur with
        title := some (jsTrim (stripLabels ["Title:", "제목:"] clean)) } }
  else if jsStartsWith clean "Channel:" || jsStartsWith clean "채널:" then
    { st with cur := { st.cur with
        channel := some (jsTrim (stripLabels ["Channel:", "채널:"] clean)) } }
  else if jsStartsWith clean "URL:" || jsStartsWith clean "Link:" ||
      jsStartsWith clean "링크:" then
    { st with cur := { st.cur with
        url := some (jsTrim (stripLabels ["URL:", "Link:", "링크:"] clean)) } }
  else if jsStartsWith clean "Description:" || jsStartsWith clean "설명:" then
    { st with cur := { st.cur with
        description := some (jsTrim (stripLabels ["Description:", "설명:"] clean)) } }
  else st

/-- The final `.map((v, i) => ({ ...v, id: i + 1 }))` re-numbering,
written with an explicit running index. -/
def reNumber (k : Nat) : List VideoRec → List VideoRec
  | [] => []
  | v :: rest => { v with id := k + 1 } :: reNumber (k + 1) rest

/-- `parseVideoResponse` from `services/geminiService.ts`: split into
lines, run the accumulator loop, flush the trailing accumulator, then
`slice(0, 5)` and re-number ids from 1. -/
def parseVideoResponse (text : String) : List VideoRec :=
  let st := (jsSplitNl text).foldl processLine ⟨[], {}, 1⟩
  let p := flushCur st.videos st.cur st.counter
  reNumber 0 (p.1.take 5)


/-! ## JSON values and `analyzeVideoAndSuggest`'s response shaping

`analyzeVideoAndSuggest` runs `JSON.parse` on the response text (with
`"{}"` as fallback), then shapes
`(data.assessments || []).map((a, index) => ({ ...a, id: index + 1 }))`
and returns `{ summary: data.summary, assessments }`.  The embedding
works on already-parsed JSON values; JavaScript property access that
would throw (`.map` on a truthy non-array, property access on `null`)
is an `Except.error`, caught by the surrounding `try`/`catch`. -/

inductive Json where
  | null
  | bool (b : Bool)
  | num (n : Int)
  | str (s : String)
  | arr (xs : List Json)
  | obj (fields : List (String × Json))

/-- First-match association lookup on a JavaScript object's fields
(parsed JSON objects have unique keys). -/
def lookupField : List (String × Json) → String → Option Json
  | [], _ => none
  | (k', v) :: rest, k => if k' = k then some v else lookupField rest k

/-- Property access `j.k`: `undefined` (here `none`) on non-objects,
field lookup on objects. -/
def jGet (j : Json) (k : String) : Option Json :=
  match j with
  | .obj fs => lookupField fs k
  | _ => none

/-- JavaScript truthiness of a JSON value. -/
def jsTruthy : Json → Bool
  | .null => false
  | .bool b => b
  | .num n => n ≠ 0
  | .str s => s ≠ ""
  | .arr _ => true
  | .obj _ => true

/-- Set (or add) key `k` in a JavaScript object's field list, as the
spread `{ ...a, k: v }` does: an existing key keeps its position with
the new value, a new key is appended. -/
def setField : List (String × Json) → String → Json → List (String × Json)
  | [], k, v => [(k, v)]
  | (k', v') :: rest, k, v =>
    if k' = k then (k, v) :: rest else (k', v') :: setField rest k v

/-- Enumerate a string's characters as JavaScript own properties
(`{..."ab"}` yields `{"0": "a", "1": "b"}`); auxiliary for spreading a
string value. -/
def strSpreadFields (k : Nat) : List Char → List (String × Json)
  | [] => []
  | c :: rest => (Nat.repr k, Json.str (String.mk [c])) :: strSpreadFields (k + 1) rest

/-- The spread `{ ...a, id: v }` applied to an arbitrary JSON value `a`
(spreading `null`/booleans/numbers contributes no properties; spreading
a string contributes its indexed characters; arrays are not produced by
the call site's schema and spread like objects of their fields would —
modelled here by their indexed elements). -/
def spreadSetId (a : Json) (v : Int) : Json :=
  match a with
  | .obj fs => .obj (setField fs "id" (.num v))
  | .str s => .obj (strSpreadFields 0 s.toList ++ [("id", .num v)])
  | .arr xs => .obj ((xs.enum.map fun p => (Nat.repr p.1, p.2)) ++ [("id", .num v)])
  | _ => .obj [("id", .num v)]

/-- `(...).map((a, index) => ({ ...a, id: index + 1 }))` with an
explicit running index. -/
def mapAssess (k : Nat) : List Json → List Json
  | [] => []
  | a :: rest => spreadSetId a ((k : Int) + 1) :: mapAssess (k + 1) rest

/-- The `VideoAnalysis` value actually produced at runtime: `summary`
is whatever `data.summary` evaluates to (possibly `undefined`, i.e.
`none`), `assessments` the re-numbered list. -/
structure AnalysisJs where
  summary : Option Json
  assessments : List Json

/-- The response-shaping core of `analyzeVideoAndSuggest`, applied to
the parsed JSON value: evaluates
`(data.assessments || []).map(...)` and `data.summary`.  `Except.error`
marks a thrown `TypeError` (`.map` of a truthy non-array value, or
property access on `null`), which the source's `catch` turns into the
analysis-failure error. -/
def analyzeResult (data : Json) : Except String AnalysisJs :=
  match data with
  | .null => .error "TypeError"
  | .obj fs =>
    let rawAssess : Json :=
      match lookupField fs "assessments" with
      | some v => if jsTruthy v then v else .arr []
      | none => .arr []
    match rawAssess with
    | .arr xs => .ok ⟨lookupField fs "summary", mapAssess 0 xs⟩
    | _ => .error "TypeError"
  | _ => .ok ⟨none, []⟩

/-! ## `generateLessonPlan`'s result shaping

On a successful collaborator call the source returns
`response.text || "수업 지도안을 생성하지 못했습니다."`; `response.text`
may be `undefined` or the empty string, both falsy. -/

/-- The literal fallback placeholder document. -/
def planFallback : String := "수업 지도안을 생성하지 못했습니다."

/-- The value returned by `generateLessonPlan` on a successful call
whose response text is `t` (`none` models `undefined`). -/
def generateLessonPlanResult (t : Option String) : String :=
  match t with
  | none => planFallback
  | some s => if s = "" then planFallback else s

/-! ## The step-flow state machine (`App.tsx`)

`AppStep` is a numeric enum (`INPUT_TOPIC = 0` … `VIEW_PLAN = 3`) and
`goBack` does raw integer arithmetic on it, so `step` is embedded as a
`Nat`.  Each React handler becomes a pure state transformer; the
awaited collaborator result becomes an explicit outcome argument
(success value or thrown failure), since the collaborator is external.
`videoSummary` is a string state initialized to `""` but assigned from
`result.summary`, which can be `undefined` at runtime, hence
`Option String` with initial value `some ""`. -/

/-- The typed assessment option (`types.ts`), as stored in the
controller state. -/
structure AssessmentOpt where
  id : Nat
  title : String
  description : String
  deriving DecidableEq, Repr

/-- Aggregate React state of `App` (the spec's `PipelineState`). -/
structure AppState where
  step : Nat
  topic : String
  videos : List VideoRec
  selectedVideo : Option VideoRec
  videoSummary : Option String
  assessments : List AssessmentOpt
  selectedAssessment : Option AssessmentOpt
  lessonPlan : String
  error : Option String
  deriving DecidableEq, Repr

/-- The initial state (`useState` initializers). -/
def initState : AppState :=
  ⟨0, "", [], none, some "", [], none, "", none⟩

/-- Outcome of the awaited `searchVideos` call: a thrown error or a
candidate list. -/
inductive SearchOutcome where
  | fail
  | ok (vs : List VideoRec)
  deriving DecidableEq

/-- The analysis value stored by `handleVideoSelect` on success. -/
structure AnalysisOutcome where
  summary : Option String
  assessments : List AssessmentOpt
  deriving DecidableEq

/-- Outcome of the awaited `analyzeVideoAndSuggest` call. -/
inductive AnalyzeOutcome where
  | fail
  | ok (a : AnalysisOutcome)
  deriving DecidableEq

/-- Outcome of the awaited `generateLessonPlan` call. -/
inductive PlanOutcome where
  | fail
  | ok (p : String)
  deriving DecidableEq

/-- Error message set when `searchVideos` throws. -/
def searchFailMsg : String := "비디오 검색 중 오류가 발생했습니다. 잠시 후 다시 시도해주세요."

/-- Error message set when the search succeeds with zero results. -/
def noResultsMsg : String := "관련 영상을 찾을 수 없습니다. 다른 주제로 시도해보세요."

/-- Error message set when `analyzeVideoAndSuggest` throws. -/
def analyzeFailMsg : String := "영상 분석에 실패했습니다."

/-- Error message set when `generateLessonPlan` throws. -/
def planFailMsg : String := "수업 지도안 생성에 실패했습니다."

/-- `handleTopicSubmit`, composed with the topic-input `onChange` that
stored `t` beforehand: guard `if (!topic.trim()) return`, then
`setError(null)`, the call, and either the no-result error, the failure
error, or storing the candidates and advancing to `SELECT_VIDEO`. -/
def handleTopicSubmit (s : AppState) (t : String) (r : SearchOutcome) : AppState :=
  if jsTrim t = "" then { s with topic := t }
  else
    match r with
    | .fail => { s with topic := t, error := some searchFailMsg }
    | .ok vs =>
      if vs.length = 0 then { s with topic := t, error := some noResultsMsg }
      else { s with topic := t, error := none, videos := vs, step := 1 }

/-- The video-card `onSelect` (`setSelectedVideo`). -/
def selectVideo (s : AppState) (v : VideoRec) : AppState :=
  { s with selectedVideo := some v }

/-- `handleVideoSelect`: guard `if (!selectedVideo) return`, then the
analyze call; on success stores summary and assessments and advances to
`SELECT_ASSESSMENT`. -/
def handleVideoSelect (s : AppState) (r : AnalyzeOutcome) : AppState :=
  match s.selectedVideo with
  | none => s
  | some _ =>
    match r with
    | .fail => { s with error := some analyzeFailMsg }
    | .ok a =>
      { s with
        error := none
        videoSummary := a.summary
        assessments := a.assessments
        step := 2 }

/-- The assessment-card `onSelect` (`setSelectedAssessment`). -/
def selectAssessment (s : AppState) (a : AssessmentOpt) : AppState :=
  { s with selectedAssessment := some a }

/-- `handleAssessmentSelect`: guard
`if (!selectedAssessment || !selectedVideo) return`, then the plan
call; on success stores the plan and advances to `VIEW_PLAN`. -/
def handleAssessmentSelect (s : AppState) (r : PlanOutcome) : AppState :=
  match s.selectedAssessment, s.selectedVideo with
  | some _, some _ =>
    match r with
    | .fail => { s with error := some planFailMsg }
    | .ok p => { s with error := none, lessonPlan := p, step := 3 }
  | _, _ => s

/-- `resetApp`: inside the `confirm(...)` branch it resets `step`,
`topic`, `videos`, `selectedVideo`, `assessments`,
`selectedAssessment`, `lessonPlan` and `error` — and nothing else
(`videoSummary` is not in the list). -/
def resetApp (s : AppState) (confirmed : Bool) : AppState :=
  if confirmed then
    { s with
      step := 0
      topic := ""
      videos := []
      selectedVideo := none
      assessments := []
      selectedAssessment := none
      lessonPlan := ""
      error := none }
  else s

/-- `goBack`: `setError(null); if (step > 0) setStep(step - 1)`. -/
def goBack (s : AppState) : AppState :=
  let s1 := { s with error := none }
  if s1.step > 0 then { s1 with step := s1.step - 1 } else s1

/-- The FlowController operations, with collaborator outcomes made
explicit. -/
inductive Op where
  | submitTopic (t : String) (r : SearchOutcome)
  | selectVideo (v : VideoRec)
  | confirmVideo (r : AnalyzeOutcome)
  | selectAssessment (a : AssessmentOpt)
  | confirmAssessment (r : PlanOutcome)
  | goBack
  | reset (confirmed : Bool)
  deriving DecidableEq

/-- Apply one operation (the corresponding handler). -/
def applyOp (s : AppState) : Op → AppState
  | .submitTopic t r => handleTopicSubmit s t r
  | .selectVideo v => selectVideo s v
  | .confirmVideo r => handleVideoSelect s r
  | .selectAssessment a => selectAssessment s a
  | .confirmAssessment r => handleAssessmentSelect s r
  | .goBack => goBack s
  | .reset b => resetApp s b

/-- When the UI exposes each operation: the topic form renders only at
step 0; the video cards and the analyze button only at step 1 (cards
iterate over `videos`); the assessment cards and the plan button only
at step 2 (cards iterate over `assessments`); the back button at steps
1 and 2; the header reset button whenever `step > 0`. -/
def enabledOp (s : AppState) : Op → Prop
  | .submitTopic _ _ => s.step = 0
  | .selectVideo v => s.step = 1 ∧ v ∈ s.videos
  | .confirmVideo _ => s.step = 1
  | .selectAssessment a => s.step = 2 ∧ a ∈ s.assessments
  | .confirmAssessment _ => s.step = 2
  | .goBack => s.step = 1 ∨ s.step = 2
  | .reset _ => s.step ≠ 0

/-- States reachable from the initial state by enabled operations. -/
inductive Reachable : AppState → Prop
  | init : Reachable initState
  | next {s : AppState} (op : Op) :
      Reachable s → enabledOp s op → Reachable (applyOp s op)

/-- States reachable without ever using `goBack`. -/
inductive ReachableNB : AppState → Prop
  | init : ReachableNB initState
  | next {s : AppState} (op : Op) :
      ReachableNB s → op ≠ Op.goBack → enabledOp s op →
      ReachableNB (applyOp s op)

/-- The spec's `PipelineState` invariant: a set `selectedVideo` has a
candidate with its id among `videoCandidates`; a set
`selectedAssessment` has an assessment with its id among the analysis
assessments; a non-empty `plan` only in the terminal step. -/
def PipelineInv (s : AppState) : Prop :=
  (∀ v, s.selectedVideo = some v → ∃ c ∈ s.videos, c.id = v.id) ∧
  (∀ a, s.selectedAssessment = some a → ∃ c ∈ s.assessments, c.id = a.id) ∧
  (s.lessonPlan ≠ "" → s.step = 3)

/-- Strengthened inductive invariant used to establish `PipelineInv`
on goBack-free executions: additionally, at step 0 nothing is selected,
at step 1 no assessment is selected, and outside the terminal step the
plan is empty. -/
def StrongInv (s : AppState) : Prop :=
  (∀ v, s.selectedVideo = some v → ∃ c ∈ s.videos, c.id = v.id) ∧
  (∀ a, s.selectedAssessment = some a → ∃ c ∈ s.assessments, c.id = a.id) ∧
  (s.step ≠ 3 → s.lessonPlan = "") ∧
  (s.step = 0 → s.selectedVideo = none ∧ s.selectedAssessment = none) ∧
  (s.step = 1 → s.selectedAssessment = none)

/-! ## Concrete sample values used by witnesses and counterexamples -/

/-- A well-formed sample candidate. -/
def vA : VideoRec := ⟨1, "영상A", some "채널A", "https://youtu.be/a", some "설명A"⟩

/-- A second sample candidate with id 2. -/
def vB : VideoRec := ⟨2, "영상B", none, "https://youtu.be/b", none⟩

/-- A sample candidate from a second, shorter search result. -/
def vC : VideoRec := ⟨1, "영상C", none, "https://youtu.be/c", none⟩

/-- A sample assessment option. -/
def aA : AssessmentOpt := ⟨1, "발표 과제", "영상 내용 발표하기"⟩

/-- A state at `SELECT_ASSESSMENT` with all earlier data present. -/
def s8a : AppState :=
  ⟨2, "수학", [vA], some vA, some "요약", [aA], some aA, "", some analyzeFailMsg⟩

/-- A state at `SELECT_VIDEO` with a video selected. -/
def s8b : AppState := ⟨1, "수학", [vA], some vA, some "", [], none, "", none⟩

/-- The state reached by: submit "수학" (two candidates), select the
second candidate, go back, submit "과학" (one candidate). -/
def c1Bad : AppState := ⟨1, "과학", [vC], some vB, some "", [], none, "", none⟩

/-- The state reached by: submit "수학", select the candidate, confirm
it with a successful analysis (summary "요약"). -/
def c2State : AppState := ⟨2, "수학", [vA], some vA, some "요약", [aA], none, "", none⟩

/-- What `resetApp` actually produces from `c2State`: everything
cleared except `videoSummary`. -/
def c2After : AppState := ⟨0, "", [], none, some "요약", [], none, "", none⟩

/-- The assessments array of the worked `parseAnalysis` example. -/
def xs7 : List Json :=
  [Json.obj [("title", Json.str "a"), ("description", Json.str "b")],
   Json.obj [("title", Json.str "c"), ("description", Json.str "d")]]

/-- The fields of the worked `parseAnalysis` example object
`{"summary":"x","assessments":[...]}`. -/
def fs7 : List (String × Json) :=
  [("summary", Json.str "x"), ("assessments", Json.arr xs7)]

/-! ## Theorems -/

/-- Claim C9: on a successful collaborator call whose response text is empty
(or absent), `generateLessonPlan` returns the literal fallback
placeholder document, and the document returned on success is never the
empty string. -/
theorem generateLessonPlan_fallback :
    generateLessonPlanResult (some "") = planFallback ∧
    ∀ t, generateLessonPlanResult t ≠ "" := by
  refine ⟨rfl, ?_⟩
  intro t
  cases t with
  | none => decide
  | some s =>
    by_cases hs : s = "" <;> simp [generateLessonPlanResult, hs, planFallback]

/-- Claim C10: calling `goBack` while the step is `InputTopic` (0) leaves the
step (and every other field except `error`) unchanged and clears
`error`. -/
theorem goBack_at_initial_step :
    ∀ s : AppState, s.step = 0 → goBack s = { s with error := none } := by
  intro s h
  simp [goBack, h]

/-- Witness for C10 at a concrete state with a pending error. -/
theorem goBack_at_initial_step_witness :
    (initState.step = 0 ∧
      goBack { initState with error := some noResultsMsg } =
        { initState with error := none }) :=
  ⟨rfl, goBack_at_initial_step { initState with error := some noResultsMsg } rfl⟩

/-- Claim C8: for every state whose step is not `InputTopic`, `goBack`
decrements the step by exactly one, clears `error`, and changes no
other field; in particular after a successful `confirmVideo` from
`SelectVideo`, `goBack` returns to `SelectVideo` with the candidate
list (and every other previously fetched field) intact. -/
theorem goBack_decrement_frame :
    (∀ s : AppState, s.step ≠ 0 →
      goBack s = { s with step := s.step - 1, error := none }) ∧
    (∀ (s : AppState) (a : AnalysisOutcome), s.step = 1 →
      s.selectedVideo ≠ none →
      goBack (handleVideoSelect s (.ok a)) =
        { s with
          step := 1
          error := none
          videoSummary := a.summary
          assessments := a.assessments }) := by
  constructor
  · intro s h
    have hpos : s.step > 0 := Nat.pos_of_ne_zero h
    simp [goBack, hpos]
  · intro s a h1 h2
    cases hsv : s.selectedVideo with
    | none => exact absurd hsv h2
    | some v => simp [handleVideoSelect, hsv, goBack]

/-- Witness for C8: both parts of `goBack_decrement_frame` evaluated at
concrete states. -/
theorem goBack_decrement_frame_witness :
    (s8a.step ≠ 0 ∧ goBack s8a = { s8a with step := s8a.step - 1, error := none }) ∧
    (s8b.step = 1 ∧ s8b.selectedVideo ≠ none ∧
      goBack (handleVideoSelect s8b (.ok ⟨some "요약", [aA]⟩)) =
        { s8b with
          step := 1
          error := none
          videoSummary := some "요약"
          assessments := [aA] }) :=
  ⟨⟨by decide, goBack_decrement_frame.1 s8a (by decide)⟩,
   ⟨rfl, by decide, goBack_decrement_frame.2 s8b ⟨some "요약", [aA]⟩ rfl (by decide)⟩⟩

/-- Claim C5 (amended): `parseAnalysis` applied to the JSON object `{}`
succeeds, with the empty assessments sequence, but the summary is the
absent value (`undefined`), not the empty string. -/
theorem parseAnalysis_empty_object :
    analyzeResult (Json.obj []) = Except.ok ⟨none, []⟩ := rfl

/-- Counterexample for C5 as stated: on `{}` the result is not
`{summary: "", assessments: []}` — the summary comes back absent
(`none`), not as the empty string. -/
theorem parseAnalysis_empty_object_counterexample :
    analyzeResult (Json.obj []) ≠ Except.ok ⟨some (Json.str ""), []⟩ ∧
    analyzeResult (Json.obj []) = Except.ok ⟨none, []⟩ := by
  constructor
  · intro h
    rw [show analyzeResult (Json.obj []) = Except.ok ⟨none, []⟩ from rfl] at h
    simp at h
  · rfl

/-- If the accumulator is not complete (title or url missing or empty),
the flush step emits nothing and leaves both the emitted list and the
accumulator unchanged. -/
theorem flushCur_of_incomplete (videos : List VideoRec) (cur : PartialVideo)
    (counter : Nat) (h : completePartial cur = false) :
    flushCur videos cur counter = (videos, cur) := by
  cases cur with
  | mk tit ch url desc =>
    rcases tit with _ | t <;> rcases url with _ | u <;>
      simp [flushCur, completePartial] at h ⊢
    exact h

/-- Claim C3 (amended): when a recognized marker line arrives over an
accumulator lacking title or url, no record is emitted, but the
accumulator is NOT cleared — only the counter advances, so its fields
persist into the next entry unless overwritten; a subsequent block that
supplies all four labeled lines is parsed into its own record (the
dropped block contributes nothing visible in that case). -/
theorem parse_marker_discard_behavior :
    (∀ (st : ParseState) (line : String),
      isMarkerLine (jsTrim line) st.counter = true →
      completePartial st.cur = false →
      processLine st line = { st with counter := st.counter + 1 }) ∧
    parseVideoResponse
      "Video 1\nTitle: A\nChannel: C1\nVideo 2\nTitle: B\nChannel: C2\nURL: u\nDescription: d" =
      [⟨1, "B", some "C2", "u", some "d"⟩] := by
  refine ⟨?_, by decide⟩
  intro st line h1 h2
  simp only [processLine, h1, if_true,
    flushCur_of_incomplete st.videos st.cur st.counter h2]

/-- Witness for C3 (amended), at the accumulator left over from a block
with title and channel but no URL, hit by the marker line "Video 2". -/
theorem parse_marker_discard_behavior_witness :
    isMarkerLine (jsTrim "Video 2") 2 = true ∧
    completePartial ⟨some "A", some "C1", none, none⟩ = false ∧
    processLine ⟨[], ⟨some "A", some "C1", none, none⟩, 2⟩ "Video 2" =
      ⟨[], ⟨some "A", some "C1", none, none⟩, 3⟩ :=
  ⟨by decide, by decide,
   parse_marker_discard_behavior.1 ⟨[], ⟨some "A", some "C1", none, none⟩, 2⟩
     "Video 2" (by decide) (by decide)⟩

/-- Counterexample for C3 as stated: for the input whose first block has
a title and a channel but no URL, followed by a block with only title
and URL, the dropped block's channel ("C1") survives into the emitted
record of the second block — its fields are not all discarded, and the
subsequent block is corrupted by the dropped one. -/
theorem parse_marker_leak_counterexample :
    parseVideoResponse "Video 1\nTitle: A\nChannel: C1\nVideo 2\nTitle: B\nURL: u" =
      [⟨1, "B", some "C1", "u", none⟩] ∧
    (parseVideoResponse "Video 1\nTitle: A\nChannel: C1\nVideo 2\nTitle: B\nURL: u").map
      VideoRec.channel ≠ [none] :=
  ⟨by decide, by decide⟩

/-- Claim C4 (amended): whether an entry qualifies for emission depends only
on its title and url (missing channel or description never disqualifies
it), but the missing fields are left absent (`none`, JavaScript
`undefined`), not defaulted to the empty string; an entry without
channel and description lines is emitted with both fields absent, also
alongside a fully labeled entry. -/
theorem parse_missing_channel_description :
    (∀ (cur : PartialVideo) (c d : Option String),
      completePartial { cur with channel := c, description := d } =
        completePartial cur) ∧
    parseVideoResponse "Video 1\nTitle: T\nURL: u" = [⟨1, "T", none, "u", none⟩] ∧
    parseVideoResponse
      "Video 1\nTitle: T\nURL: u\nVideo 2\nTitle: T2\nChannel: C\nURL: u2\nDescription: D" =
      [⟨1, "T", none, "u", none⟩, ⟨2, "T2", some "C", "u2", some "D"⟩] := by
  refine ⟨?_, by decide, by decide⟩
  intro cur c d
  cases cur
  rfl

/-- Counterexample for C4 as stated: the emitted candidate for a block
with no channel and no description line has those fields absent
(`none`), not present with the empty string (`some ""`). -/
theorem parse_missing_fields_counterexample :
    parseVideoResponse "Video 1\nTitle: T\nURL: u" = [⟨1, "T", none, "u", none⟩] ∧
    (parseVideoResponse "Video 1\nTitle: T\nURL: u").map VideoRec.channel ≠ [some ""] ∧
    (parseVideoResponse "Video 1\nTitle: T\nURL: u").map VideoRec.description ≠ [some ""] :=
  ⟨by decide, by decide, by decide⟩

/-- Every record the flush step emits has non-empty title and url. -/
theorem flushCur_good (videos : List VideoRec) (cur : PartialVideo) (counter : Nat)
    (h : ∀ v ∈ videos, v.title ≠ "" ∧ v.url ≠ "") :
    ∀ v ∈ (flushCur videos cur counter).1, v.title ≠ "" ∧ v.url ≠ "" := by
  cases cur with
  | mk tit ch url desc =>
    rcases tit with _ | t <;> rcases url with _ | u <;> simp [flushCur]
    · exact fun v hv => h v hv
    · exact fun v hv => h v hv
    · exact fun v hv => h v hv
    · split
      case isTrue hc =>
        intro v hv
        rcases List.mem_append.1 hv with hv | hv
        · exact h v hv
        · rcases List.mem_singleton.1 hv with rfl
          exact hc
      case isFalse => exact fun v hv => h v hv

/-- One loop iteration either leaves the emitted list unchanged (label
lines and ignored lines) or flushes the accumulator (marker lines). -/
theorem processLine_videos (st : ParseState) (line : String) :
    (processLine st line).videos = st.videos ∨
    (processLine st line).videos = (flushCur st.videos st.cur st.counter).1 := by
  simp only [processLine]
  split
  · exact Or.inr rfl
  · split
    · exact Or.inl rfl
    · split
      · exact Or.inl rfl
      · split
        · exact Or.inl rfl
        · split
          · exact Or.inl rfl
          · exact Or.inl rfl

/-- Processing one line never emits a record with empty title or url. -/
theorem processLine_good (st : ParseState) (line : String)
    (h : ∀ v ∈ st.videos, v.title ≠ "" ∧ v.url ≠ "") :
    ∀ v ∈ (processLine st line).videos, v.title ≠ "" ∧ v.url ≠ "" := by
  rcases processLine_videos st line with hv | hv <;> rw [hv]
  · exact h
  · exact flushCur_good st.videos st.cur st.counter h

/-- The emitted-records invariant carried through the whole line loop. -/
theorem foldl_good (lines : List String) :
    ∀ st : ParseState, (∀ v ∈ st.videos, v.title ≠ "" ∧ v.url ≠ "") →
      ∀ v ∈ (lines.foldl processLine st).videos, v.title ≠ "" ∧ v.url ≠ "" := by
  induction lines with
  | nil => exact fun st h => h
  | cons l ls ih =>
    intro st h
    exact ih (processLine st l) (processLine_good st l h)

/-- Re-numbering keeps the list length. -/
theorem reNumber_length (l : List VideoRec) :
    ∀ k, (reNumber k l).length = l.length := by
  induction l with
  | nil => intro k; rfl
  | cons v rest ih => intro k; simp [reNumber, ih]

/-- Re-numbering assigns ids `k+1, k+2, ...` in order. -/
theorem reNumber_map_id (l : List VideoRec) :
    ∀ k, (reNumber k l).map VideoRec.id = List.range' (k + 1) l.length := by
  induction l with
  | nil => intro k; rfl
  | cons v rest ih =>
    intro k
    simp [reNumber, List.range'_succ, ih]

/-- Re-numbering touches only ids: every emitted record keeps the title
and url of a source record. -/
theorem reNumber_mem (l : List VideoRec) :
    ∀ k, ∀ v ∈ reNumber k l, ∃ w ∈ l, v.title = w.title ∧ v.url = w.url := by
  induction l with
  | nil => intro k v hv; cases hv
  | cons w rest ih =>
    intro k v hv
    rcases List.mem_cons.1 hv with rfl | hv
    · exact ⟨w, List.mem_cons_self w rest, rfl, rfl⟩
    · rcases ih (k + 1) v hv with ⟨w', hw', h1, h2⟩
      exact ⟨w', List.mem_cons_of_mem w hw', h1, h2⟩

/-- Claim C6: for every input text, `parseVideoList` returns at most 5
candidates, every returned candidate has non-empty title and non-empty
url, and the ids of the N returned candidates are exactly `1..N` in
emission order (`List.range' 1 N`), independent of any numbering in the
source text. -/
theorem parseVideoResponse_bounds_ids (text : String) :
    (parseVideoResponse text).length ≤ 5 ∧
    (∀ v ∈ parseVideoResponse text, v.title ≠ "" ∧ v.url ≠ "") ∧
    (parseVideoResponse text).map VideoRec.id =
      List.range' 1 (parseVideoResponse text).length := by
  have hre : parseVideoResponse text =
      reNumber 0 ((flushCur ((jsSplitNl text).foldl processLine ⟨[], {}, 1⟩).videos
        ((jsSplitNl text).foldl processLine ⟨[], {}, 1⟩).cur
        ((jsSplitNl text).foldl processLine ⟨[], {}, 1⟩).counter).1.take 5) := rfl
  have hloop := foldl_good (jsSplitNl text) ⟨[], {}, 1⟩ (by intro v hv; cases hv)
  have hflush := flushCur_good ((jsSplitNl text).foldl processLine ⟨[], {}, 1⟩).videos
    ((jsSplitNl text).foldl processLine ⟨[], {}, 1⟩).cur
    ((jsSplitNl text).foldl processLine ⟨[], {}, 1⟩).counter hloop
  refine ⟨?_, ?_, ?_⟩
  · rw [hre, reNumber_length, List.length_take]
    exact Nat.min_le_left 5 _
  · rw [hre]
    intro v hv
    rcases reNumber_mem _ 0 v hv with ⟨w, hw, h1, h2⟩
    rcases hflush w (List.mem_of_mem_take hw) with ⟨hw1, hw2⟩
    exact ⟨h1 ▸ hw1, h2 ▸ hw2⟩
  · rw [hre, reNumber_map_id, reNumber_length]

/-- `{...a, id: v}` makes `id` read back as `v`. -/
theorem lookupField_setField_self (fs : List (String × Json)) (k : String) (v : Json) :
    lookupField (setField fs k v) k = some v := by
  induction fs with
  | nil => simp [setField, lookupField]
  | cons p rest ih =>
    by_cases hk : p.1 = k <;> simp [setField, lookupField, hk, ih]

/-- `{...a, id: v}` leaves every other key's value unchanged. -/
theorem lookupField_setField_other (fs : List (String × Json)) (k k' : String)
    (v : Json) (h : k' ≠ k) :
    lookupField (setField fs k v) k' = lookupField fs k' := by
  induction fs with
  | nil => simp [setField, lookupField, h, Ne.symm h]
  | cons p rest ih =>
    by_cases hk : p.1 = k
    · subst hk
      simp [setField, lookupField, h, Ne.symm h]
    · by_cases hk' : p.1 = k' <;> simp [setField, lookupField, hk, hk', h, ih]

/-- The re-numbering map keeps the list length. -/
theorem mapAssess_length (xs : List Json) :
    ∀ k, (mapAssess k xs).length = xs.length := by
  induction xs with
  | nil => intro k; rfl
  | cons a rest ih => intro k; simp [mapAssess, ih]

/-- Element-wise description of the re-numbering map on a list of JSON
objects: position `i` gets `id = k + i + 1` and keeps every other key. -/
theorem mapAssess_get?_spec (xs : List Json)
    (hobj : ∀ b ∈ xs, ∃ g, b = Json.obj g) :
    ∀ (k i : Nat) (a : Json), xs.get? i = some a →
      ∃ b, (mapAssess k xs).get? i = some b ∧
        jGet b "id" = some (Json.num ((k : Int) + (i : Int) + 1)) ∧
        ∀ key, key ≠ "id" → jGet b key = jGet a key := by
  induction xs with
  | nil => intro k i a ha; cases ha
  | cons x rest ih =>
    intro k i a ha
    cases i with
    | zero =>
      rcases hobj x (List.mem_cons_self x rest) with ⟨g, rfl⟩
      rcases Option.some.inj ha with rfl
      refine ⟨Json.obj (setField g "id" (Json.num ((k : Int) + 1))), rfl, ?_, ?_⟩
      · simp [jGet, lookupField_setField_self]
      · intro key hkey
        simp [jGet, lookupField_setField_other g "id" key _ hkey]
    | succ n =>
      rcases ih (fun b hb => hobj b (List.mem_cons_of_mem x hb)) (k + 1) n a ha with
        ⟨b, hb1, hb2, hb3⟩
      refine ⟨b, hb1, ?_, hb3⟩
      rw [hb2]
      congr 2
      push_cast
      ring

/-- Claim C7: for every JSON analysis object whose `assessments` field is an
array of objects, the shaping inside `analyzeVideoAndSuggest` succeeds,
passes `summary` through as looked up, and re-sequences every
assessment's `id` to its 1-based position while keeping every other key
(in particular `title` and `description`) unchanged. -/
theorem parseAnalysis_resequence_ids (fs : List (String × Json)) (xs : List Json)
    (hassess : lookupField fs "assessments" = some (Json.arr xs))
    (hobj : ∀ b ∈ xs, ∃ g, b = Json.obj g) :
    ∃ res, analyzeResult (Json.obj fs) = Except.ok res ∧
      res.summary = lookupField fs "summary" ∧
      res.assessments.length = xs.length ∧
      ∀ (i : Nat) (a : Json), xs.get? i = some a →
        ∃ b, res.assessments.get? i = some b ∧
          jGet b "id" = some (Json.num ((i : Int) + 1)) ∧
          jGet b "title" = jGet a "title" ∧
          jGet b "description" = jGet a "description" := by
  refine ⟨⟨lookupField fs "summary", mapAssess 0 xs⟩, ?_, rfl, mapAssess_length xs 0, ?_⟩
  · simp [analyzeResult, hassess, jsTruthy]
  · intro i a ha
    rcases mapAssess_get?_spec xs hobj 0 i a ha with ⟨b, hb1, hb2, hb3⟩
    refine ⟨b, hb1, ?_, hb3 "title" (by decide), hb3 "description" (by decide)⟩
    rw [hb2]
    norm_num

/-- Witness for C7 at the worked example
`{"summary":"x","assessments":[{"title":"a","description":"b"},{"title":"c","description":"d"}]}`. -/
theorem parseAnalysis_resequence_ids_witness :
    lookupField fs7 "assessments" = some (Json.arr xs7) ∧
    (∀ b ∈ xs7, ∃ g, b = Json.obj g) ∧
    ∃ res, analyzeResult (Json.obj fs7) = Except.ok res ∧
      res.summary = lookupField fs7 "summary" ∧
      res.assessments.length = xs7.length ∧
      ∀ (i : Nat) (a : Json), xs7.get? i = some a →
        ∃ b, res.assessments.get? i = some b ∧
          jGet b "id" = some (Json.num ((i : Int) + 1)) ∧
          jGet b "title" = jGet a "title" ∧
          jGet b "description" = jGet a "description" :=
  ⟨rfl,
   by
     intro b hb
     rcases List.mem_cons.1 hb with rfl | hb
     · exact ⟨_, rfl⟩
     · rcases List.mem_singleton.1 hb with rfl
       exact ⟨_, rfl⟩,
   parseAnalysis_resequence_ids fs7 xs7 rfl
     (by
       intro b hb
       rcases List.mem_cons.1 hb with rfl | hb
       · exact ⟨_, rfl⟩
       · rcases List.mem_singleton.1 hb with rfl
         exact ⟨_, rfl⟩)⟩

/-- The initial state satisfies the strengthened invariant. -/
theorem strongInv_init : StrongInv initState :=
  ⟨fun _ hv => Option.noConfusion hv, fun _ ha => Option.noConfusion ha,
   fun _ => rfl, fun _ => ⟨rfl, rfl⟩, fun _ => rfl⟩

/-- Every enabled operation other than `goBack` preserves the
strengthened invariant. -/
theorem strongInv_preserved (s : AppState) (op : Op) (hop : op ≠ Op.goBack)
    (hen : enabledOp s op) (hinv : StrongInv s) : StrongInv (applyOp s op) := by
  obtain ⟨h1, h2, h3, h4, h5⟩ := hinv
  cases op with
  | submitTopic t r =>
    have hstep : s.step = 0 := hen
    obtain ⟨hsv, hsa⟩ := h4 hstep
    have hlp : s.lessonPlan = "" := h3 (by rw [hstep]; decide)
    by_cases htr : jsTrim t = ""
    · simp only [applyOp, handleTopicSubmit, if_pos htr]
      exact ⟨h1, h2, h3, h4, h5⟩
    · cases r with
      | fail =>
        simp only [applyOp, handleTopicSubmit, if_neg htr]
        exact ⟨h1, h2, h3, h4, h5⟩
      | ok vs =>
        by_cases hlen : vs.length = 0
        · simp only [applyOp, handleTopicSubmit, if_neg htr, if_pos hlen]
          exact ⟨h1, h2, h3, h4, h5⟩
        · simp only [applyOp, handleTopicSubmit, if_neg htr, if_neg hlen]
          refine ⟨?_, ?_, ?_, ?_, ?_⟩
          · intro v hv
            exact Option.noConfusion (hsv.symm.trans hv)
          · intro a ha
            exact Option.noConfusion (hsa.symm.trans ha)
          · intro _
            exact hlp
          · intro h0
            exact absurd h0 (by simp)
          · intro _
            exact hsa
  | selectVideo v =>
    obtain ⟨hstep, hmem⟩ := hen
    refine ⟨?_, h2, h3, ?_, ?_⟩
    · intro w hw
      obtain rfl := Option.some.inj hw
      exact ⟨v, hmem, rfl⟩
    · intro h0
      exact absurd (hstep.symm.trans h0) (by decide)
    · intro _
      exact h5 hstep
  | confirmVideo r =>
    have hstep : s.step = 1 := hen
    have hsa : s.selectedAssessment = none := h5 hstep
    have hlp : s.lessonPlan = "" := h3 (by rw [hstep]; decide)
    simp only [applyOp, handleVideoSelect]
    cases hsv : s.selectedVideo with
    | none => exact ⟨h1, h2, h3, h4, h5⟩
    | some v =>
      rw [hsv] at h1 h4
      cases r with
      | fail => exact ⟨h1, h2, h3, h4, h5⟩
      | ok a =>
        refine ⟨?_, ?_, ?_, ?_, ?_⟩
        · intro w hw
          exact h1 w hw
        · intro b hb
          exact Option.noConfusion (hsa.symm.trans hb)
        · intro _
          exact hlp
        · intro h0
          exact absurd h0 (by simp)
        · intro h0
          exact absurd h0 (by simp)
  | selectAssessment a =>
    obtain ⟨hstep, hmem⟩ := hen
    refine ⟨h1, ?_, h3, ?_, ?_⟩
    · intro b hb
      obtain rfl := Option.some.inj hb
      exact ⟨a, hmem, rfl⟩
    · intro h0
      exact absurd (hstep.symm.trans h0) (by decide)
    · intro h0
      exact absurd (hstep.symm.trans h0) (by decide)
  | confirmAssessment r =>
    have hstep : s.step = 2 := hen
    simp only [applyOp, handleAssessmentSelect]
    cases hsa : s.selectedAssessment with
    | none => exact ⟨h1, h2, h3, h4, h5⟩
    | some b =>
      cases hsv : s.selectedVideo with
      | none => exact ⟨h1, h2, h3, h4, h5⟩
      | some v =>
        rw [hsa] at h2 h4 h5
        rw [hsv] at h1 h4
        cases r with
        | fail => exact ⟨h1, h2, h3, h4, h5⟩
        | ok p =>
          refine ⟨?_, ?_, ?_, ?_, ?_⟩
          · intro w hw
            exact h1 w hw
          · intro c hc
            exact h2 c hc
          · intro h0
            exact absurd rfl h0
          · intro h0
            exact absurd h0 (by simp)
          · intro h0
            exact absurd h0 (by simp)
  | goBack => exact absurd rfl hop
  | reset b =>
    simp only [applyOp, resetApp]
    split
    · exact ⟨fun v hv => Option.noConfusion hv, fun a ha => Option.noConfusion ha,
        fun _ => rfl, fun _ => ⟨rfl, rfl⟩, fun _ => rfl⟩
    · exact ⟨h1, h2, h3, h4, h5⟩

/-- Claim C1 (amended): the `PipelineState` invariant holds in every state
reachable by sequences of FlowController operations that never use
`goBack`.  (With `goBack` it fails: going back and re-fetching leaves a
stale selection whose id need not be in the refreshed candidate list —
see the reachable counterexample.) -/
theorem pipeline_invariant_no_goBack (s : AppState) (h : ReachableNB s) :
    PipelineInv s := by
  have hs : StrongInv s := by
    induction h with
    | init => exact strongInv_init
    | next op hr hne hen ih => exact strongInv_preserved _ op hne hen ih
  obtain ⟨h1, h2, h3, _, _⟩ := hs
  exact ⟨h1, h2, fun hlp => Decidable.byContradiction fun h0 => hlp (h3 h0)⟩

/-- Witness for C1 (amended) at the initial state. -/
theorem pipeline_invariant_no_goBack_witness : PipelineInv initState :=
  pipeline_invariant_no_goBack initState ReachableNB.init

/-- Counterexample for C1 as stated: the state reached by
submit "수학" (two candidates), select candidate 2, `goBack`,
submit "과학" (one candidate) is reachable, yet its `selectedVideo`
(id 2) has no candidate with its id in the current `videoCandidates`
(ids {1}), so the `PipelineState` invariant fails on a reachable
state. -/
theorem pipeline_invariant_reachable_counterexample :
    Reachable c1Bad ∧ ¬ PipelineInv c1Bad := by
  constructor
  · have r1 : Reachable (⟨1, "수학", [vA, vB], none, some "", [], none, "", none⟩ : AppState) := by
      have h := Reachable.next (Op.submitTopic "수학" (SearchOutcome.ok [vA, vB]))
        Reachable.init rfl
      rwa [show applyOp initState (Op.submitTopic "수학" (SearchOutcome.ok [vA, vB])) =
        (⟨1, "수학", [vA, vB], none, some "", [], none, "", none⟩ : AppState) from by decide] at h
    have r2 : Reachable (⟨1, "수학", [vA, vB], some vB, some "", [], none, "", none⟩ : AppState) := by
      have h := Reachable.next (Op.selectVideo vB) r1 ⟨rfl, by decide⟩
      rwa [show applyOp (⟨1, "수학", [vA, vB], none, some "", [], none, "", none⟩ : AppState)
        (Op.selectVideo vB) =
        (⟨1, "수학", [vA, vB], some vB, some "", [], none, "", none⟩ : AppState) from by decide] at h
    have r3 : Reachable (⟨0, "수학", [vA, vB], some vB, some "", [], none, "", none⟩ : AppState) := by
      have h := Reachable.next Op.goBack r2 (Or.inl rfl)
      rwa [show applyOp (⟨1, "수학", [vA, vB], some vB, some "", [], none, "", none⟩ : AppState)
        Op.goBack =
        (⟨0, "수학", [vA, vB], some vB, some "", [], none, "", none⟩ : AppState) from by decide] at h
    have h := Reachable.next (Op.submitTopic "과학" (SearchOutcome.ok [vC])) r3 rfl
    rwa [show applyOp (⟨0, "수학", [vA, vB], some vB, some "", [], none, "", none⟩ : AppState)
      (Op.submitTopic "과학" (SearchOutcome.ok [vC])) = c1Bad from by decide] at h
  · intro hinv
    obtain ⟨hsel, _, _⟩ := hinv
    rcases hsel vB rfl with ⟨c, hc, hid⟩
    simp [c1Bad] at hc
    subst hc
    exact absurd hid (by decide)

/-- Claim C2 (code-bug evidence): from the reachable state produced by a
successful `confirmVideo` with summary "요약", a confirmed `reset`
returns to step 0 and clears topic, candidates, selections, plan and
error — but leaves `videoSummary` at "요약" instead of clearing the
analysis summary, contradicting the reset-clears-everything contract. -/
theorem resetApp_leaves_videoSummary :
    Reachable c2State ∧
    applyOp c2State (Op.reset true) = c2After ∧
    c2After.videoSummary = some "요약" ∧ c2After.videoSummary ≠ some "" := by
  refine ⟨?_, by decide, rfl, by decide⟩
  have r1 : Reachable (⟨1, "수학", [vA], none, some "", [], none, "", none⟩ : AppState) := by
    have h := Reachable.next (Op.submitTopic "수학" (SearchOutcome.ok [vA]))
      Reachable.init rfl
    rwa [show applyOp initState (Op.submitTopic "수학" (SearchOutcome.ok [vA])) =
      (⟨1, "수학", [vA], none, some "", [], none, "", none⟩ : AppState) from by decide] at h
  have r2 : Reachable (⟨1, "수학", [vA], some vA, some "", [], none, "", none⟩ : AppState) := by
    have h := Reachable.next (Op.selectVideo vA) r1 ⟨rfl, by decide⟩
    rwa [show applyOp (⟨1, "수학", [vA], none, some "", [], none, "", none⟩ : AppState)
      (Op.selectVideo vA) =
      (⟨1, "수학", [vA], some vA, some "", [], none, "", none⟩ : AppState) from by decide] at h
  have h := Reachable.next (Op.confirmVideo (AnalyzeOutcome.ok ⟨some "요약", [aA]⟩)) r2 rfl
  rwa [show applyOp (⟨1, "수학", [vA], some vA, some "", [], none, "", none⟩ : AppState)
    (Op.confirmVideo (AnalyzeOutcome.ok ⟨some "요약", [aA]⟩)) = c2State from by decide] at h

end EduTube
